import Mathlib

/-!
# Badge-verification system: shallow embedding and verification

A shallow embedding of the badge-verification service (TypeScript sources under
`src/`):

* `src/entities/Verification.ts`, `BadgeMint.ts`, `BadgeType.ts` — the data model;
* `src/services/eligibility.service.ts` — `EligibilityService.checkEligibility`
  and its helpers;
* `src/services/minting.service.ts` (latest revision in the file) —
  `MintingService.canMintBadge`, `initiateMint`, `revokeBadge`, plus the earlier
  revision's `processMint`;
* `src/services/verification.service.ts` — session lifecycle operations;
* `src/services/websocket.service.ts` and `websocket-events.service.ts` — the
  event bus.

External effects are explicit parameters: the current time is an `Int` (epoch
milliseconds), each `Math.random()` draw is a rational supplied by an oracle,
and the ledger (`web3Service.mintBadge`) outcome is an `Except` input.
JavaScript truthiness on strings / numbers (`x || d`) is modelled by the
`jsOr*` helpers.
-/

/-- `s.toLowerCase()` on wallet addresses (character-wise lowering, written via
the character list so that it evaluates by kernel reduction). -/
def lowercase (s : String) : String := ⟨s.data.map Char.toLower⟩

/-- JS `o || d` for an optional number: `0` (and absence) falls back to `d`. -/
def jsOrInt (o : Option Int) (d : Int) : Int :=
  match o with
  | some v => if v = 0 then d else v
  | none => d

/-- JS `o || d` for an optional string: `""` (and absence) falls back to `d`. -/
def jsOrStr (o : Option String) (d : String) : String :=
  match o with
  | some v => if v = "" then d else v
  | none => d

/-- JS truthiness of an optional string (`undefined` and `""` are falsy). -/
def jsTruthyStr (o : Option String) : Bool :=
  match o with
  | some v => v ≠ ""
  | none => false

/-- Error taxonomy from `src/utils/errors.ts` (the classes used by the embedded
services). Each constructor keeps the data its class constructor receives. -/
inductive AppError
  | validation (message : String)
  | notFound (resource : String) (ident : Option String)
  | eligibility (badgeType : String) (message : String)
  | minting (message : String) (transactionHash : Option String)
deriving Repr, DecidableEq

/-- The `message` of the corresponding `AppError` subclass (`errors.ts` builds it
in each constructor). -/
def AppError.message : AppError → String
  | .validation m => m
  | .notFound r i => r ++ (match i with | some s => " with ID " ++ s | none => "") ++ " not found"
  | .eligibility b m => "Eligibility check failed for " ++ b ++ ": " ++ m
  | .minting m _ => "Minting failed: " ++ m

/-! ## Data model (`src/entities`) -/

/-- `VerificationStatus` from `Verification.ts`. -/
inductive VerificationStatus
  | pending
  | completed
  | failed
  | expired
deriving Repr, DecidableEq

/-- `VerificationType` from `Verification.ts`. -/
inductive VerificationType
  | primaryDID
  | secondary
deriving Repr, DecidableEq

/-- The `Verification` entity (columns used by the embedded services; timestamps
are epoch milliseconds). -/
structure Verification where
  id : String
  wallet : String
  provider : String
  vtype : VerificationType
  status : VerificationStatus
  sessionId : Option String
  verificationId : Option String
  did : Option String
  errorMessage : Option String
  completedAt : Option Int
  expiresAt : Option Int
deriving Repr, DecidableEq

/-- `Verification.isExpired()`: `new Date() > this.expiresAt` when an expiry is
set, otherwise `false`. -/
def Verification.isExpired (v : Verification) (now : Int) : Bool :=
  match v.expiresAt with
  | some e => e < now
  | none => false

/-- `Verification.canBeUsed()`: `completed` and not expired. -/
def Verification.canBeUsed (v : Verification) (now : Int) : Bool :=
  v.status == .completed && !(v.isExpired now)

/-- `rules.logic` values of `BadgeRules` (`BadgeType.ts`). -/
inductive RuleLogic
  | AND
  | OR
deriving Repr, DecidableEq

/-- The `params` bag of a secondary rule: the keys read by the attribute-check
strategies in `eligibility.service.ts`. (Diagnostic-only keys are omitted.) -/
structure SecParams where
  account : Option String := none
  minTransactions : Option Int := none
  minVotes : Option Int := none
  space : Option String := none
deriving Repr, DecidableEq

/-- One entry of `BadgeRules.secondary`. `required` is optional here because the
services defend against its absence (`rule.required !== false`). -/
structure SecondaryRule where
  method : String
  required : Option Bool := none
  params : Option SecParams := none
deriving Repr, DecidableEq

/-- `BadgeRules` (`BadgeType.ts`): primary provider list, secondary rules,
optional combine logic. -/
structure BadgeRules where
  primary : List String
  secondary : List SecondaryRule
  logic : Option RuleLogic := none
deriving Repr, DecidableEq

/-- The `BadgeType` entity (columns used by the embedded services). -/
structure BadgeTypeE where
  key : String
  name : String
  rules : BadgeRules
  isActive : Bool
deriving Repr, DecidableEq

/-! ## Verification session queries (`verification.service.ts`) -/

/-- `VerificationService.getActiveVerifications`: sessions of the (lowercased)
wallet with status `completed` and `expiresAt IS NULL OR expiresAt > now`,
optionally filtered by provider (`if (provider)` — an empty string is falsy and
adds no filter). -/
def getActiveVerifications (sessions : List Verification) (wallet : String)
    (provider : Option String) (now : Int) : List Verification :=
  sessions.filter fun v =>
    v.wallet == lowercase wallet &&
    v.status == .completed &&
    (match v.expiresAt with
     | none => true
     | some e => now < e) &&
    (match provider with
     | some p => if p == "" then true else v.provider == p
     | none => true)

/-! ## Eligibility evaluator (`eligibility.service.ts`, current revision) -/

/-- The detail payload attached to a secondary check result. `details` is an
untyped bag in the source; the embedding keeps the keys that
`buildEligibilityDetails` reads (`requirement`, `requiredAction`) and the
error-path keys, omitting diagnostic-only keys (`checkedAt`, `mock`, counts,
notes). -/
structure SecDetails where
  requirement : Option String := none
  requiredAction : Option String := none
  error : Option String := none
  suggestion : Option String := none
deriving Repr, DecidableEq

/-- A primary (identity-provider) check result of `checkPrimaryRequirements`. -/
structure PrimCheckResult where
  provider : String
  verified : Bool
  did : Option String := none
deriving Repr, DecidableEq

/-- A secondary (attribute) check result of `checkSecondaryRequirements`
(`required` is the already-defaulted `rule.required !== false`). -/
structure SecCheckResult where
  method : String
  verified : Bool
  required : Bool
  details : SecDetails := {}
deriving Repr, DecidableEq

/-- Value returned by one attribute-check strategy. -/
structure SecOutcome where
  verified : Bool
  details : SecDetails := {}
deriving Repr, DecidableEq

/-- `mockTwitterFollowCheck`: requires `params.account` (truthy), then verifies
iff the `Math.random()` draw exceeds `0.3`. -/
def mockTwitterFollowCheck (params : Option SecParams) (rand : ℚ) :
    Except AppError SecOutcome :=
  let account := params.bind (·.account)
  if !jsTruthyStr account then
    .error (.validation "Twitter account parameter is required for follow check")
  else
    let action := "Follow @" ++ account.getD "" ++ " on Twitter"
    .ok { verified := rand > 3/10, details := { requiredAction := some action } }

/-- `mockOnChainActivityCheck`: `minTransactions = params?.minTransactions || 1`,
rejects negative minima, then compares `Math.floor(Math.random() * 21)` against
the minimum. -/
def mockOnChainActivityCheck (params : Option SecParams) (rand : ℚ) :
    Except AppError SecOutcome :=
  let minTransactions := jsOrInt (params.bind (·.minTransactions)) 1
  if minTransactions < 0 then
    .error (.validation "Minimum transactions must be a positive number")
  else
    let transactionCount : Int := ⌊rand * 21⌋
    let req := "Minimum " ++ toString minTransactions ++ " on-chain transaction(s)"
    .ok { verified := transactionCount ≥ minTransactions,
          details := { requirement := some req } }

/-- `mockSnapshotVotesCheck`: `minVotes = params?.minVotes || 1`,
`space = params?.space || 'daospace.eth'`, vote count is
`Math.floor(Math.random() * 6)`. -/
def mockSnapshotVotesCheck (params : Option SecParams) (rand : ℚ) :
    Except AppError SecOutcome :=
  let minVotes := jsOrInt (params.bind (·.minVotes)) 1
  let space := jsOrStr (params.bind (·.space)) "daospace.eth"
  if minVotes < 0 then
    .error (.validation "Minimum votes must be a positive number")
  else
    let voteCount : Int := ⌊rand * 6⌋
    let req := "Minimum " ++ toString minVotes ++ " vote(s) in " ++ space ++ " Snapshot space"
    .ok { verified := voteCount ≥ minVotes, details := { requirement := some req } }

/-- `mockOnChainGovernanceCheck`: participation iff the draw exceeds `0.5`. -/
def mockOnChainGovernanceCheck (params : Option SecParams) (rand : ℚ) :
    Except AppError SecOutcome :=
  let minVotes := jsOrInt (params.bind (·.minVotes)) 1
  if minVotes < 0 then
    .error (.validation "Minimum governance votes must be a positive number")
  else
    .ok { verified := rand > 1/2,
          details := { requirement := some "Participate in on-chain governance" } }

/-- `EligibilityService.verifySecondaryRule`: dispatch on `rule.method`; an
unknown method throws a configuration-class `EligibilityError`. -/
def verifySecondaryRule (rule : SecondaryRule) (rand : ℚ) :
    Except AppError SecOutcome :=
  if rule.method == "twitter_follow" then
    mockTwitterFollowCheck rule.params rand
  else if rule.method == "onchain_activity" then
    mockOnChainActivityCheck rule.params rand
  else if rule.method == "snapshot_votes" then
    mockSnapshotVotesCheck rule.params rand
  else if rule.method == "onchain_governance" then
    mockOnChainGovernanceCheck rule.params rand
  else
    .error (.eligibility "unknown" ("Unsupported verification method: " ++ rule.method))

/-- `EligibilityService.checkSecondaryRequirements`: evaluates each rule in
order (the `i`-th rule consumes the `i`-th random draw), catching any thrown
error and recording the entry as unverified with the error message — so this
function itself never throws. -/
def checkSecondaryRequirements (secondaryRules : List SecondaryRule)
    (rand : Nat → ℚ) : List SecCheckResult :=
  secondaryRules.enum.map fun (i, rule) =>
    match verifySecondaryRule rule (rand i) with
    | .ok out =>
        { method := rule.method, verified := out.verified,
          required := !(rule.required == some false), details := out.details }
    | .error e =>
        { method := rule.method, verified := false,
          required := !(rule.required == some false),
          details := { error := some e.message,
                       suggestion := some "Verification service temporarily unavailable" } }

/-- `EligibilityService.checkPrimaryRequirements`: a provider is verified iff
one of its active verifications `canBeUsed()`. -/
def checkPrimaryRequirements (sessions : List Verification) (wallet : String)
    (primaryProviders : List String) (now : Int) : List PrimCheckResult :=
  primaryProviders.map fun provider =>
    let activeVerifications := getActiveVerifications sessions wallet (some provider) now
    match activeVerifications.find? (fun v => v.canBeUsed now) with
    | some v => { provider := provider, verified := true, did := v.did }
    | none => { provider := provider, verified := false }

/-- `EligibilityService.evaluatePrimaryLogic` (default logic `OR`): vacuously
true on an empty list, else `every`/`some` over the verified flags. -/
def evaluatePrimaryLogic (results : List PrimCheckResult)
    (logic : Option RuleLogic) : Bool :=
  if results.isEmpty then true
  else
    match logic.getD .OR with
    | .AND => results.all (·.verified)
    | .OR => results.any (·.verified)

/-- `EligibilityService.evaluateSecondaryLogic` (default logic `AND`): only
entries with `required !== false` participate; vacuously true when none do. -/
def evaluateSecondaryLogic (results : List SecCheckResult)
    (logic : Option RuleLogic) : Bool :=
  if results.isEmpty then true
  else
    let requiredResults := results.filter (·.required)
    if requiredResults.isEmpty then true
    else
      match logic.getD .AND with
      | .AND => requiredResults.all (·.verified)
      | .OR => requiredResults.any (·.verified)

/-- `EligibilityService.buildEligibilityDetails`: the human-readable
explanation. Returns `(reasons, missingRequirements)`. -/
def buildEligibilityDetails (primaryResults : List PrimCheckResult)
    (secondaryResults : List SecCheckResult) (rules : BadgeRules)
    (primaryEligible : Bool) (badgeName : String) : List String × List String :=
  let successfulPrimary := primaryResults.filter (·.verified)
  let failedPrimary := primaryResults.filter (fun r => !r.verified)
  let (reasonsP, missingP) :=
    if rules.logic == some .AND then
      (successfulPrimary.map (fun r => "Identity verified with " ++ r.provider),
       failedPrimary.map (fun r => "Missing " ++ r.provider ++ " identity verification"))
    else
      if successfulPrimary.length > 0 then
        (["Identity verified with " ++
            String.intercalate " or " (successfulPrimary.map (·.provider))], [])
      else
        ([], ["Missing identity verification (need one of: " ++
                String.intercalate ", " (primaryResults.map (·.provider)) ++ ")"])
  let secondaryParts := secondaryResults.enum.map fun (index, result) =>
    let rule := rules.secondary.get? index
    let isRequired := !((rule.bind (·.required)) == some false)
    if result.verified then
      (["✓ " ++ result.method ++ " requirement satisfied"], ([] : List String))
    else if isRequired then
      let requirementText := jsOrStr result.details.requirement result.method
      (([] : List String),
       ("✗ " ++ requirementText) ::
         (if jsTruthyStr result.details.requiredAction then
            ["  → " ++ result.details.requiredAction.getD ""]
          else []))
    else
      (["○ Optional " ++ result.method ++ " not satisfied"], ([] : List String))
  let reasons := reasonsP ++ (secondaryParts.map Prod.fst).flatten
  let missingRequirements := missingP ++ (secondaryParts.map Prod.snd).flatten
  if primaryEligible && missingRequirements.isEmpty then
    (("Eligible for " ++ badgeName) :: reasons, missingRequirements)
  else if !primaryEligible then
    (reasons, "Identity verification requirements not met" :: missingRequirements)
  else
    (reasons, missingRequirements)

/-- The snapshot an eligibility evaluation runs over: the badge-type table, the
verification sessions, the current time, and the `Math.random()` draws consumed
by the attribute checks (the `i`-th secondary rule reads draw `i`). -/
structure EligEnv where
  badgeTypes : List BadgeTypeE
  sessions : List Verification
  now : Int
  rand : Nat → ℚ

/-- `EligibilityResult` from `eligibility.service.ts`. -/
structure EligibilityResult where
  eligible : Bool
  badgeKey : String
  badgeName : String
  reasons : List String
  missingRequirements : List String
  proofsPrimary : List PrimCheckResult
  proofsSecondary : List SecCheckResult
deriving Repr, DecidableEq

/-- `EligibilityService.checkEligibility`. Notes on fidelity: the repository
lookup already filters `isActive: true`, so the subsequent in-code
`!badgeType.isActive` guard is unreachable but kept; the
`!rules?.primary || !Array.isArray(rules.primary)` guard is statically
impossible in the typed model (`rules.primary` is always a list) and is
omitted. -/
def checkEligibility (env : EligEnv) (wallet badgeKey : String) :
    Except AppError EligibilityResult :=
  if wallet == "" || badgeKey == "" then
    .error (.validation "Wallet and badge key are required")
  else
    match env.badgeTypes.find? (fun bt => bt.key == badgeKey && bt.isActive) with
    | none => .error (.notFound "Badge type" (some badgeKey))
    | some badgeType =>
      if !badgeType.isActive then
        .error (.eligibility badgeKey "Badge type is currently inactive")
      else
        let rules := badgeType.rules
        let primaryResults := checkPrimaryRequirements env.sessions wallet rules.primary env.now
        let secondaryResults := checkSecondaryRequirements rules.secondary env.rand
        let primaryEligible := evaluatePrimaryLogic primaryResults rules.logic
        let secondaryEligible := evaluateSecondaryLogic secondaryResults rules.logic
        let eligible := primaryEligible && secondaryEligible
        let details := buildEligibilityDetails primaryResults secondaryResults rules
          primaryEligible badgeType.name
        .ok { eligible := eligible, badgeKey := badgeType.key, badgeName := badgeType.name,
              reasons := details.1, missingRequirements := details.2,
              proofsPrimary := primaryResults, proofsSecondary := secondaryResults }

/-! ## Event bus emission (`websocket-events.service.ts`)

Only the addressing (wallet-scoped vs. channel) and the event type are kept;
payload timestamps and identifiers are not observed by any claim. -/

/-- Addressing of one event-bus send: `sendToWallet` or `sendToChannel`. -/
inductive EvTarget
  | wallet (w : String)
  | channel (c : String)
deriving Repr, DecidableEq

/-- One event-bus emission. -/
structure Event where
  target : EvTarget
  etype : String
deriving Repr, DecidableEq

/-- `sendMintingStarted`: wallet-scoped plus the `minting` and `wallet_events`
channels. -/
def mintingStartedEvents (w : String) : List Event :=
  [⟨.wallet w, "minting_started"⟩, ⟨.channel "minting", "minting_started"⟩,
   ⟨.channel "wallet_events", "minting_started"⟩]

/-- `sendTransactionStarting`: wallet-scoped plus the `transactions` channel. -/
def transactionStartingEvents (w : String) : List Event :=
  [⟨.wallet w, "blockchain_transaction_starting"⟩,
   ⟨.channel "transactions", "blockchain_transaction_starting"⟩]

/-- `sendTransactionSubmitted`: wallet-scoped plus the `transactions` channel. -/
def transactionSubmittedEvents (w : String) : List Event :=
  [⟨.wallet w, "blockchain_transaction_submitted"⟩,
   ⟨.channel "transactions", "blockchain_transaction_submitted"⟩]

/-- `sendMintingCompleted`: wallet-scoped `minting_completed`, channel `minting`
gets `minting_success`, channel `transactions` gets `transaction_confirmed`. -/
def mintingCompletedEvents (w : String) : List Event :=
  [⟨.wallet w, "minting_completed"⟩, ⟨.channel "minting", "minting_success"⟩,
   ⟨.channel "transactions", "transaction_confirmed"⟩]

/-- `sendMintingFailed`: wallet-scoped plus the `minting` channel. -/
def mintingFailedEvents (w : String) : List Event :=
  [⟨.wallet w, "minting_failed"⟩, ⟨.channel "minting", "minting_failed"⟩]

/-- `sendMintStatusUpdate`: wallet-scoped plus the `minting` channel. -/
def mintStatusUpdateEvents (w : String) : List Event :=
  [⟨.wallet w, "mint_status_update"⟩, ⟨.channel "minting", "mint_status_update"⟩]

/-- `sendBadgeRevoked`: wallet-scoped plus the `admin` (audit) and `minting`
channels. -/
def badgeRevokedEvents (w : String) : List Event :=
  [⟨.wallet w, "badge_revoked"⟩, ⟨.channel "admin", "badge_revoked"⟩,
   ⟨.channel "minting", "badge_revoked"⟩]

/-! ## Minting orchestrator (`minting.service.ts`, latest revision) -/

/-- The `BadgeMint` entity row, with the `metadata` keys the service reads and
writes (`status`, `error`, `revocationReason`, `revokedAt`); records are keyed
by a generated id, modelled as a `Nat` in creation order. Metadata keys that no
claim observes (`initiatedAt`, `completedAt`, block data) are omitted. -/
structure MintRecord where
  id : Nat
  wallet : String
  badgeTypeKey : String
  tokenId : Option String := none
  transactionHash : Option String := none
  isRevoked : Bool := false
  metaStatus : String := "pending"
  metaError : Option String := none
  metaRevocationReason : Option String := none
  metaRevokedAt : Option Int := none
deriving Repr, DecidableEq

/-- The mutable state the minting service acts on: the `badge_mints` table, the
next fresh record id, and the trace of event-bus emissions. -/
structure MintState where
  mints : List MintRecord
  nextId : Nat
  events : List Event
deriving Repr

/-- The empty store. -/
def mintInitState : MintState := { mints := [], nextId := 0, events := [] }

/-- Append event-bus emissions. -/
def MintState.emit (st : MintState) (evs : List Event) : MintState :=
  { st with events := st.events ++ evs }

/-- Repository `save` of a mutated `BadgeMint` entity: update the row with the
given id in place. -/
def updateMintById (mints : List MintRecord) (mintId : Nat)
    (g : MintRecord → MintRecord) : List MintRecord :=
  mints.map fun r => if r.id == mintId then g r else r

/-- The uniqueness-guard predicate: a non-revoked record of this
(wallet, badgeType-key) pair — the `findOne` condition in `canMintBadge` and
the earlier revision's `initiateMint`. -/
def activeFor (w k : String) (r : MintRecord) : Bool :=
  r.wallet == w && r.badgeTypeKey == k && !r.isRevoked

/-- `CanMintResult` of `minting.service.ts`. -/
structure CanMintResult where
  canMint : Bool
  reason : Option String := none
  existingMint : Option MintRecord := none
  suggestion : Option String := none
deriving Repr, DecidableEq

/-- The ledger adapter's successful `mintBadge` return value
(`web3.service.ts`). -/
structure Web3MintResult where
  tokenId : Nat
  transactionHash : String
  blockNumber : Nat := 0
  contractAddress : String := ""
  gasUsed : Nat := 0
deriving Repr, DecidableEq

/-- `MintingService.canMintBadge`: input validation, badge-type
existence/activity, the uniqueness guard (`isRevoked: false` only), then the
eligibility evaluator; any error thrown by the evaluator is caught and reported
as `canMint: false`. -/
def canMintBadge (env : EligEnv) (st : MintState) (wallet badgeTypeKey : String) :
    CanMintResult :=
  if wallet == "" || badgeTypeKey == "" then
    { canMint := false, reason := some "Wallet and badge type key are required",
      suggestion := some "Provide both wallet address and badge type key" }
  else
    match env.badgeTypes.find? (fun bt => bt.key == badgeTypeKey && bt.isActive) with
    | none =>
      { canMint := false,
        reason := some ("Badge type '" ++ badgeTypeKey ++ "' not found or inactive"),
        suggestion := some "Check the badge type key or contact the issuer" }
    | some _ =>
      match st.mints.find? (activeFor (lowercase wallet) badgeTypeKey) with
      | some existingMint =>
        { canMint := false, reason := some ("Already have badge '" ++ badgeTypeKey ++ "'"),
          existingMint := some existingMint,
          suggestion := some "Each wallet can only mint this badge once" }
      | none =>
        match checkEligibility env wallet badgeTypeKey with
        | .error _ =>
          { canMint := false, reason := some "Error checking eligibility",
            suggestion := some "Try again later or contact support" }
        | .ok eligibility =>
          if !eligibility.eligible then
            { canMint := false,
              reason := some ("Not eligible for badge: " ++
                String.intercalate ", " eligibility.missingRequirements),
              suggestion := some "Complete the missing requirements and try again" }
          else
            { canMint := true, reason := some "Eligible to mint badge" }

/-- The value `initiateMint` resolves with (when it does not throw). -/
structure InitiateMintResult where
  success : Bool
  mintId : Option Nat := none
  error : Option String := none
  transactionHash : Option String := none
deriving Repr, DecidableEq

/-- `MintingService.initiateMint` (latest revision): emits an early started
event, re-runs `canMintBadge`, creates the `pending` record, performs the
ledger call (its outcome is the `web3` input), and records
completion or failure. A ledger failure persists the `failed` record, emits a
failure event from the inner catch and again from the outer catch, and
re-throws `MintingError`; a missing badge type on the second lookup re-throws
`NotFoundError` after the outer catch's failure event. -/
def initiateMint (env : EligEnv) (st : MintState) (wallet badgeTypeKey : String)
    (web3 : Except String Web3MintResult) :
    Except AppError InitiateMintResult × MintState :=
  let st := st.emit (mintingStartedEvents wallet)
  let cm := canMintBadge env st wallet badgeTypeKey
  if !cm.canMint then
    (.ok { success := false, error := cm.reason }, st.emit (mintingFailedEvents wallet))
  else
    match env.badgeTypes.find? (fun bt => bt.key == badgeTypeKey) with
    | none =>
      (.error (.notFound "Badge type" (some badgeTypeKey)),
       st.emit (mintingFailedEvents wallet))
    | some badgeType =>
      let mintRec : MintRecord :=
        { id := st.nextId, wallet := lowercase wallet, badgeTypeKey := badgeType.key }
      let st : MintState :=
        { st with mints := st.mints ++ [mintRec], nextId := st.nextId + 1 }
      let st := st.emit (mintingStartedEvents wallet)
      let st := st.emit (transactionStartingEvents wallet)
      match web3 with
      | .error msg =>
        let st : MintState :=
          { st with mints := updateMintById st.mints mintRec.id fun r =>
              { r with metaStatus := "failed", metaError := some msg } }
        let st := st.emit (mintingFailedEvents wallet)
        let st := st.emit (mintingFailedEvents wallet)
        (.error (.minting ("Blockchain minting failed: " ++ msg) none), st)
      | .ok result =>
        let st := st.emit (transactionSubmittedEvents wallet)
        let st : MintState :=
          { st with mints := updateMintById st.mints mintRec.id fun r =>
              { r with tokenId := some (toString result.tokenId),
                       transactionHash := some result.transactionHash,
                       metaStatus := "completed" } }
        let st := st.emit (mintingCompletedEvents wallet)
        (.ok { success := true, mintId := some mintRec.id,
               transactionHash := some result.transactionHash }, st)

/-- `MintingService.processMint` (earlier revision of `minting.service.ts`):
marks the record `processing`, performs the ledger call, and records `success`
or `failed` in the metadata; a missing record is logged and ignored. It never
creates records and never touches `isRevoked`. -/
def processMint (st : MintState) (mintId : Nat)
    (web3 : Except String Web3MintResult) : MintState :=
  match st.mints.find? (fun r => r.id == mintId) with
  | none => st
  | some _ =>
    let st : MintState :=
      { st with mints := updateMintById st.mints mintId fun r =>
          { r with metaStatus := "processing" } }
    match web3 with
    | .ok result =>
      { st with mints := updateMintById st.mints mintId fun r =>
          { r with tokenId := some (toString result.tokenId),
                   transactionHash := some result.transactionHash,
                   metaStatus := "success" } }
    | .error msg =>
      { st with mints := updateMintById st.mints mintId fun r =>
          { r with metaStatus := "failed", metaError := some msg } }

/-- `MintingService.revokeBadge` (latest revision): validates the reason (the
`!mintId` half of the guard is a missing-argument check, not representable for
a `Nat` id), requires the record to exist and not be revoked already, emits the
`revocation_started` status update, sets the flag plus the metadata reason and
timestamp, and emits the `badge_revoked` event to the wallet, `admin` and
`minting` targets. -/
def revokeBadge (st : MintState) (now : Int) (mintId : Nat) (reason : String) :
    Except AppError Bool × MintState :=
  if reason == "" then
    (.error (.validation "Mint ID and reason are required"), st)
  else
    match st.mints.find? (fun r => r.id == mintId) with
    | none => (.error (.notFound "Mint record" (some (toString mintId))), st)
    | some mint =>
      if mint.isRevoked then
        (.error (.validation "Badge is already revoked"), st)
      else
        let st := st.emit (mintStatusUpdateEvents mint.wallet)
        let st : MintState :=
          { st with mints := updateMintById st.mints mintId fun r =>
              { r with isRevoked := true, metaRevocationReason := some reason,
                       metaRevokedAt := some now } }
        let st := st.emit (badgeRevokedEvents mint.wallet)
        (.ok true, st)

/-- One orchestrator operation, for reasoning about operation sequences. -/
inductive MintOp
  | canMint (wallet badgeTypeKey : String)
  | initiate (wallet badgeTypeKey : String) (web3 : Except String Web3MintResult)
  | process (mintId : Nat) (web3 : Except String Web3MintResult)
  | revoke (now : Int) (mintId : Nat) (reason : String)

/-- State effect of one operation (`canMintBadge` is read-only). -/
def mintStep (env : EligEnv) (st : MintState) : MintOp → MintState
  | .canMint _ _ => st
  | .initiate w k web3 => (initiateMint env st w k web3).2
  | .process m web3 => processMint st m web3
  | .revoke now m reason => (revokeBadge st now m reason).2

/-- Run a sequence of orchestrator operations. -/
def mintRun (env : EligEnv) (st : MintState) (ops : List MintOp) : MintState :=
  ops.foldl (mintStep env) st

/-- Number of non-revoked records of a (wallet, badgeType) pair. -/
def activeCount (st : MintState) (w k : String) : Nat :=
  st.mints.countP (activeFor w k)

/-- The §3 invariant: at most one non-revoked `BadgeMint` per
(wallet, badgeType) pair. -/
def mintUniqueness (st : MintState) : Prop :=
  ∀ w k, activeCount st w k ≤ 1

/-! ## Verification session lifecycle (`verification.service.ts`) -/

/-- The `users` table row (`User.ts` columns touched by `updateUserDID`). -/
structure UserE where
  wallet : String
  did : Option String := none
  provider : Option String := none
deriving Repr, DecidableEq

/-- State the verification service acts on. -/
structure VerifState where
  verifications : List Verification
  users : List UserE
deriving Repr

/-- The DID provider's callback verdict (`didService.handleCallback` outcome),
an input to the model. -/
structure DIDCallbackResult where
  success : Bool
  did : Option String := none
  error : Option String := none
  verificationId : Option String := none
deriving Repr, DecidableEq

/-- Update a verification row in place (repository `save` after mutating the
found entity). -/
def saveVerification (vs : List Verification) (vid : String)
    (f : Verification → Verification) : List Verification :=
  vs.map fun v => if v.id == vid then f v else v

/-- `updateUserDID`: upsert the user's resolved DID and provider. -/
def updateUserDID (users : List UserE) (wallet did provider : String) : List UserE :=
  match users.find? (fun u => u.wallet == lowercase wallet) with
  | none => users ++ [{ wallet := lowercase wallet, did := some did, provider := some provider }]
  | some _ =>
    users.map fun u =>
      if u.wallet == lowercase wallet then
        { u with did := some did, provider := some provider }
      else u

/-- `VerificationService.updateVerificationSuccess`: `markCompleted` on the
entity (status `completed`, completion time, DID, provider verification id) and
DID propagation onto the user for primary verifications. -/
def updateVerificationSuccess (st : VerifState) (now : Int) (verificationId : String)
    (did : String) (providerVerificationId : Option String) :
    Except String Verification × VerifState :=
  match st.verifications.find? (fun v => v.id == verificationId) with
  | none => (.error ("Verification not found: " ++ verificationId), st)
  | some verification =>
    let updated := { verification with
      status := VerificationStatus.completed, completedAt := some now,
      did := some did, verificationId := providerVerificationId }
    let vs := saveVerification st.verifications verificationId fun v =>
      { v with status := .completed, completedAt := some now,
               did := some did, verificationId := providerVerificationId }
    let st : VerifState := { st with verifications := vs }
    let st : VerifState :=
      if verification.vtype == .primaryDID && did ≠ "" then
        { st with users := updateUserDID st.users verification.wallet did verification.provider }
      else st
    (.ok updated, st)

/-- `VerificationService.updateVerificationFailure`: `markFailed` on the entity
(status `failed`, error message, completion time). -/
def updateVerificationFailure (st : VerifState) (now : Int) (verificationId : String)
    (error : String) : Except String Verification × VerifState :=
  match st.verifications.find? (fun v => v.id == verificationId) with
  | none => (.error ("Verification not found: " ++ verificationId), st)
  | some verification =>
    let updated := { verification with
      status := VerificationStatus.failed, errorMessage := some error,
      completedAt := some now }
    let vs := saveVerification st.verifications verificationId fun v =>
      { v with status := .failed, errorMessage := some error, completedAt := some now }
    (.ok updated, { st with verifications := vs })

/-- `VerificationService.handleDIDVerificationCallback`: locates the session by
`sessionId || payload.sessionId`, rejects a non-`pending` session without
mutating it, sweeps a `pending`-but-expired session to `expired` and rejects,
otherwise records the provider verdict (`success && did` truthy marks
completion, anything else marks failure). -/
def handleDIDVerificationCallback (st : VerifState) (now : Int)
    (sessionId : Option String) (payloadSessionId : Option String)
    (didResult : DIDCallbackResult) : Except String Verification × VerifState :=
  let sid : Option String :=
    match sessionId with
    | some s => if s == "" then payloadSessionId else some s
    | none => payloadSessionId
  match sid with
  | none => (.error "Verification session not found", st)
  | some s =>
    match st.verifications.find? (fun v => v.sessionId == some s) with
    | none => (.error "Verification session not found", st)
    | some verification =>
      if verification.status ≠ .pending then
        (.error "Verification already processed", st)
      else if verification.isExpired now then
        let vs := saveVerification st.verifications verification.id fun v =>
          { v with status := .expired }
        (.error "Verification session expired", { st with verifications := vs })
      else
        if didResult.success && jsTruthyStr didResult.did then
          updateVerificationSuccess st now verification.id (didResult.did.getD "")
            didResult.verificationId
        else
          updateVerificationFailure st now verification.id
            (jsOrStr didResult.error "Verification failed")

/-- `VerificationService.expireVerification`: sets the status to `expired`
unconditionally — without checking the current status. -/
def expireVerification (st : VerifState) (verificationId : String) :
    Except String Verification × VerifState :=
  match st.verifications.find? (fun v => v.id == verificationId) with
  | none => (.error ("Verification not found: " ++ verificationId), st)
  | some verification =>
    let vs := saveVerification st.verifications verificationId fun v =>
      { v with status := .expired }
    (.ok { verification with status := .expired }, { st with verifications := vs })

/-- `VerificationService.revokeVerification`: sets the status to `failed`, the
error message to the reason (default `'Manually revoked'`) and the completion
time — again without checking the current status. -/
def revokeVerification (st : VerifState) (now : Int) (verificationId : String)
    (reason : Option String) : Except String Verification × VerifState :=
  match st.verifications.find? (fun v => v.id == verificationId) with
  | none => (.error ("Verification not found: " ++ verificationId), st)
  | some verification =>
    let msg := jsOrStr reason "Manually revoked"
    let vs := saveVerification st.verifications verificationId fun v =>
      { v with status := .failed, errorMessage := some msg, completedAt := some now }
    (.ok { verification with status := .failed, errorMessage := some msg,
                             completedAt := some now },
     { st with verifications := vs })

/-- `VerificationService.cleanupExpiredVerifications` (the periodic sweep):
`UPDATE ... SET status = 'expired' WHERE status = 'pending' AND expiresAt < now`;
returns the updated rows and the affected count. -/
def cleanupExpiredVerifications (sessions : List Verification) (now : Int) :
    List Verification × Nat :=
  (sessions.map fun v =>
     if v.status == .pending &&
        (match v.expiresAt with | some e => e < now | none => false) then
       { v with status := .expired }
     else v,
   sessions.countP fun v =>
     v.status == .pending &&
     (match v.expiresAt with | some e => e < now | none => false))

/-! ## Event bus delivery (`websocket.service.ts`) -/

/-- One registered connection: its per-connection subscription set, the
authenticated wallet (from the connection query string), and whether the
socket is in the OPEN ready-state. -/
structure WSClient where
  id : String
  subscriptions : List String
  userWallet : Option String := none
  isOpen : Bool := true
deriving Repr, DecidableEq

/-- `WebSocketService.sendToChannel`: the recipients of a channel-scoped
message — every registered client whose subscription set contains the channel
and whose socket is OPEN (`sendToClient` re-checks the OPEN state before
`socket.send`). -/
def sendToChannel (clients : List WSClient) (channel : String) : List WSClient :=
  clients.filter fun c => c.subscriptions.contains channel && c.isOpen

/-- `WebSocketService.sendToWallet`: the recipients of a wallet-scoped
message — every registered client authenticated as that wallet with an OPEN
socket. -/
def sendToWallet (clients : List WSClient) (wallet : String) : List WSClient :=
  clients.filter fun c => c.userWallet == some wallet && c.isOpen

/-! ## Concrete fixtures used by the verification theorems -/

/-- The Scenario A/B badge: `dao-voter`, `logic = OR`,
`primary = ["polygonid", "idos"]`, no secondary rules. -/
def daoVoterBadge : BadgeTypeE :=
  { key := "dao-voter", name := "DAO Voter",
    rules := { primary := ["polygonid", "idos"], secondary := [], logic := some .OR },
    isActive := true }

/-- A completed, unexpired `idos` session of wallet `0xab`. -/
def scenarioSession : Verification :=
  { id := "v1", wallet := "0xab", provider := "idos", vtype := .primaryDID,
    status := .completed, sessionId := some "s1", verificationId := none,
    did := some "did:idos:1", errorMessage := none, completedAt := some 0,
    expiresAt := none }

/-- Snapshot with the `dao-voter` badge and one usable `idos` session. -/
def scenarioEnv : EligEnv :=
  { badgeTypes := [daoVoterBadge], sessions := [scenarioSession], now := 0,
    rand := fun _ => 0 }

/-- Snapshot with the `dao-voter` badge and no sessions at all. -/
def noSessionEnv : EligEnv :=
  { badgeTypes := [daoVoterBadge], sessions := [], now := 0, rand := fun _ => 0 }

/-- A successful ledger outcome. -/
def web3ok : Except String Web3MintResult := .ok { tokenId := 7, transactionHash := "0xtx" }

/-- State after the first `initiateMint` of the double-call scenario. -/
def scenarioAfterFirst : MintState :=
  (initiateMint scenarioEnv mintInitState "0xAB" "dao-voter" web3ok).2

/-- A badge with no primary and no secondary requirements, for the vacuous
eligibility scenario. -/
def envBasic : EligEnv :=
  { badgeTypes := [⟨"basic", "Basic", ⟨[], [], none⟩, true⟩],
    sessions := [], now := 0, rand := fun _ => 0 }

/-- The result `checkEligibility` computes on `envBasic` for wallet `0xab`. -/
def resBasic : EligibilityResult :=
  { eligible := true, badgeKey := "basic", badgeName := "Basic", reasons := [],
    missingRequirements := ["Missing identity verification (need one of: )"],
    proofsPrimary := [], proofsSecondary := [] }

/-- A failed, non-revoked mint record of the (0xab, dao-voter) pair. -/
def failedRecord : MintRecord :=
  { id := 0, wallet := "0xab", badgeTypeKey := "dao-voter", metaStatus := "failed",
    metaError := some "tx failed" }

/-- Store holding only `failedRecord`. -/
def failedState : MintState := { mints := [failedRecord], nextId := 1, events := [] }

/-- A required secondary rule whose `method` names no known strategy. -/
def unknownMethodRule : SecondaryRule := { method := "discord_member", required := some true }

/-- Snapshot with a badge whose only secondary rule is `unknownMethodRule`. -/
def unknownMethodEnv : EligEnv :=
  { badgeTypes := [⟨"special", "Special", ⟨[], [unknownMethodRule], none⟩, true⟩],
    sessions := [], now := 0, rand := fun _ => 0 }

/-- A `completed` (terminal) verification session. -/
def completedSession : Verification :=
  { id := "v9", wallet := "0xab", provider := "idos", vtype := .primaryDID,
    status := .completed, sessionId := some "sess9", verificationId := none,
    did := some "did:idos:9", errorMessage := none, completedAt := some 10,
    expiresAt := none }

/-- Store holding only `completedSession`. -/
def oneSessionState : VerifState := { verifications := [completedSession], users := [] }

/-- What `revokeVerification` turns `completedSession` into. -/
def revokedExpected : Verification := { completedSession with status := .failed, errorMessage := some "policy violation", completedAt := some 50 }

/-- A `pending` session whose expiry (10) has passed by `now = 50`. -/
def pendingExpiredSession : Verification :=
  { id := "p1", wallet := "0xab", provider := "idos", vtype := .primaryDID,
    status := .pending, sessionId := some "sp", verificationId := none, did := none,
    errorMessage := none, completedAt := none, expiresAt := some 10 }

/-- An already-revoked mint record. -/
def revokedMintRecord : MintRecord :=
  { id := 3, wallet := "0xab", badgeTypeKey := "dao-voter", isRevoked := true,
    metaStatus := "completed" }

/-- Store holding only `revokedMintRecord`. -/
def revokedMintState : MintState := { mints := [revokedMintRecord], nextId := 4, events := [] }

/-- A completed, non-revoked mint record. -/
def completedMintRecord : MintRecord :=
  { id := 0, wallet := "0xab", badgeTypeKey := "dao-voter", metaStatus := "completed" }

/-- Store holding only `completedMintRecord`. -/
def completedMintState : MintState :=
  { mints := [completedMintRecord], nextId := 1, events := [] }

/-- The record mutation `initiateMint` persists on a ledger failure. -/
def mintFailUpdate (msg : String) (r : MintRecord) : MintRecord :=
  { r with metaStatus := "failed", metaError := some msg }

/-- The record mutation `initiateMint` persists on ledger success. -/
def mintSuccessUpdate (result : Web3MintResult) (r : MintRecord) : MintRecord :=
  { r with tokenId := some (toString result.tokenId),
           transactionHash := some result.transactionHash, metaStatus := "completed" }

/-- The record mutation `revokeBadge` persists. -/
def revokeUpdate (reason : String) (now : Int) (r : MintRecord) : MintRecord :=
  { r with isRevoked := true, metaRevocationReason := some reason, metaRevokedAt := some now }

/-! ## Supporting lemmas -/

/-- Emitting events leaves the mint table unchanged. -/
theorem mints_emit (st : MintState) (evs : List Event) :
    (st.emit evs).mints = st.mints := rfl

/-- Emitting events leaves the id counter unchanged. -/
theorem nextId_emit (st : MintState) (evs : List Event) :
    (st.emit evs).nextId = st.nextId := rfl

/-- An in-place row update cannot increase the number of rows satisfying a
predicate that the update only turns off. -/
theorem countP_updateMintById_le (l : List MintRecord) (mid : Nat)
    (g : MintRecord → MintRecord) (p : MintRecord → Bool)
    (h : ∀ r, p (g r) = true → p r = true) :
    (updateMintById l mid g).countP p ≤ l.countP p := by
  unfold updateMintById
  induction l with
  | nil => simp
  | cons a l ih =>
    simp only [List.map_cons, List.countP_cons]
    have hhead : (if p (if a.id == mid then g a else a) then 1 else 0) ≤
        (if p a then 1 else 0) := by
      by_cases hid : a.id == mid
      · simp only [hid, if_true]
        by_cases hp : p (g a)
        · simp [hp, h a hp]
        · simp [hp]
      · simp [hid]
    exact Nat.add_le_add ih hhead

/-- A field-preserving row update leaves the uniqueness-guard predicate
unchanged. -/
theorem activeFor_of_preserve (w k : String) (g : MintRecord → MintRecord)
    (hg : ∀ r : MintRecord, (g r).wallet = r.wallet ∧ (g r).badgeTypeKey = r.badgeTypeKey ∧
      (g r).isRevoked = r.isRevoked) (r : MintRecord) :
    activeFor w k (g r) = activeFor w k r := by
  obtain ⟨h1, h2, h3⟩ := hg r
  simp [activeFor, h1, h2, h3]

/-- When `canMintBadge` accepts, its uniqueness guard found no non-revoked
record of the pair. -/
theorem canMint_true_guard (env : EligEnv) (st : MintState) (w k : String)
    (h : (canMintBadge env st w k).canMint = true) :
    st.mints.find? (activeFor (lowercase w) k) = none := by
  unfold canMintBadge at h
  split at h
  · simp at h
  · split at h
    · simp at h
    · split at h
      · simp at h
      · rename_i hfind
        exact hfind

/-- The mint table after `initiateMint`: either untouched, or — when the guard
accepted — one fresh `pending` row appended and then updated in place by a
field-preserving mutation. -/
theorem initiateMint_mints (env : EligEnv) (st : MintState) (w0 k0 : String)
    (web3 : Except String Web3MintResult) :
    (initiateMint env st w0 k0 web3).2.mints = st.mints ∨
    ((canMintBadge env (st.emit (mintingStartedEvents w0)) w0 k0).canMint = true ∧
     ∃ bt g, env.badgeTypes.find? (fun b => b.key == k0) = some bt ∧
       (∀ r : MintRecord, (g r).wallet = r.wallet ∧ (g r).badgeTypeKey = r.badgeTypeKey ∧
          (g r).isRevoked = r.isRevoked) ∧
       (initiateMint env st w0 k0 web3).2.mints =
         updateMintById (st.mints ++
           [{ id := st.nextId, wallet := lowercase w0, badgeTypeKey := bt.key }]) st.nextId g) := by
  by_cases hcm : (canMintBadge env (st.emit (mintingStartedEvents w0)) w0 k0).canMint = true
  · cases hfind : env.badgeTypes.find? (fun b => b.key == k0) with
    | none =>
      left
      simp [initiateMint, hcm, hfind, mints_emit]
    | some bt =>
      right
      refine ⟨hcm, bt, ?_⟩
      cases web3 with
      | error msg =>
        refine ⟨mintFailUpdate msg, rfl, fun r => ⟨rfl, rfl, rfl⟩, ?_⟩
        simp [initiateMint, hcm, hfind, mints_emit, nextId_emit, mintFailUpdate,
          updateMintById]
      | ok result =>
        refine ⟨mintSuccessUpdate result, rfl, fun r => ⟨rfl, rfl, rfl⟩, ?_⟩
        simp [initiateMint, hcm, hfind, mints_emit, nextId_emit, mintSuccessUpdate,
          updateMintById]
  · left
    have hcm2 : (canMintBadge env (st.emit (mintingStartedEvents w0)) w0 k0).canMint = false := by
      revert hcm
      cases (canMintBadge env (st.emit (mintingStartedEvents w0)) w0 k0).canMint <;> simp
    simp [initiateMint, hcm2, mints_emit]

/-- Every single orchestrator operation preserves the uniqueness invariant. -/
theorem mintStep_preserves (env : EligEnv) (st : MintState) (op : MintOp)
    (h : mintUniqueness st) : mintUniqueness (mintStep env st op) := by
  cases op with
  | canMint w0 k0 => exact h
  | process mid web3 =>
    intro w k
    have hle := h w k
    unfold activeCount at hle ⊢
    show List.countP (activeFor w k) (processMint st mid web3).mints ≤ 1
    unfold processMint
    split
    · exact hle
    · cases web3 with
      | ok r =>
        exact le_trans (countP_updateMintById_le _ _ _ _ (fun r hr => hr))
          (le_trans (countP_updateMintById_le _ _ _ _ (fun r hr => hr)) hle)
      | error msg =>
        exact le_trans (countP_updateMintById_le _ _ _ _ (fun r hr => hr))
          (le_trans (countP_updateMintById_le _ _ _ _ (fun r hr => hr)) hle)
  | revoke now mid reason =>
    intro w k
    have hle := h w k
    unfold activeCount at hle ⊢
    show List.countP (activeFor w k) (revokeBadge st now mid reason).2.mints ≤ 1
    unfold revokeBadge
    split
    · exact hle
    · split
      · exact hle
      · split
        · exact hle
        · refine le_trans (countP_updateMintById_le _ _ _ _ ?_) hle
          intro r hr
          simp [activeFor] at hr
  | initiate w0 k0 web3 =>
    intro w k
    have hle := h w k
    unfold activeCount at hle ⊢
    show List.countP (activeFor w k) (initiateMint env st w0 k0 web3).2.mints ≤ 1
    rcases initiateMint_mints env st w0 k0 web3 with heq | ⟨hcm, bt, g, hfindbt, hg, heq⟩
    · rw [heq]; exact hle
    · rw [heq]
      have hguard := canMint_true_guard env _ w0 k0 hcm
      have hzero : st.mints.countP (activeFor (lowercase w0) k0) = 0 := by
        rw [List.countP_eq_zero]
        intro a ha
        have hna := List.find?_eq_none.mp hguard a ha
        simpa using hna
      have hbtkey : bt.key = k0 := by simpa using List.find?_some hfindbt
      have hbase : (st.mints ++
          [({ id := st.nextId, wallet := lowercase w0, badgeTypeKey := bt.key } :
            MintRecord)]).countP (activeFor w k) ≤ 1 := by
        rw [List.countP_append]
        by_cases hp : activeFor w k { id := st.nextId, wallet := lowercase w0, badgeTypeKey := bt.key } = true
        · have hpair := hp
          simp only [activeFor, Bool.and_eq_true, beq_iff_eq] at hpair
          have hw : w = lowercase w0 := hpair.1.1.symm
          have hk : k = bt.key := hpair.1.2.symm
          subst hw; subst hk
          rw [hbtkey, hzero]
          simp [List.countP_cons, activeFor]
        · simp only [Bool.not_eq_true] at hp
          simp [List.countP_cons, hp]
          exact hle
      exact le_trans
        (countP_updateMintById_le _ st.nextId g (activeFor w k)
          (fun r hr => by rwa [activeFor_of_preserve w k g hg r] at hr)) hbase

/-- Assembled invariant preservation over whole operation sequences. -/
theorem mintRun_preserves (env : EligEnv) (ops : List MintOp) (st : MintState)
    (h : mintUniqueness st) : mintUniqueness (mintRun env st ops) := by
  induction ops generalizing st with
  | nil => exact h
  | cons op ops ih => exact ih _ (mintStep_preserves env st op h)

/-- A secondary check result carries the `required` flag of its rule. -/
theorem mem_checkSecondary (secondaryRules : List SecondaryRule) (rand : Nat → ℚ)
    (x : SecCheckResult) (hx : x ∈ checkSecondaryRequirements secondaryRules rand) :
    ∃ rule ∈ secondaryRules, x.required = !(rule.required == some false) := by
  simp only [checkSecondaryRequirements, List.mem_map] at hx
  obtain ⟨⟨i, rule⟩, hmem, rfl⟩ := hx
  refine ⟨rule, List.getElem?_mem (List.mk_mem_enum_iff_getElem?.mp hmem), ?_⟩
  cases h : verifySecondaryRule rule (rand i) <;> simp [h]

/-- With no required entries, the secondary combine is vacuously true. -/
theorem evaluateSecondary_no_required (results : List SecCheckResult)
    (logic : Option RuleLogic) (h : ∀ x ∈ results, x.required = false) :
    evaluateSecondaryLogic results logic = true := by
  unfold evaluateSecondaryLogic
  by_cases hres : results.isEmpty
  · simp [hres]
  · have hfil : results.filter (·.required) = [] :=
      List.filter_eq_nil_iff.mpr (by intro a ha; simp [h a ha])
    simp [hres, hfil]

/-- Everything `getActiveVerifications` returns satisfies `canBeUsed`. -/
theorem active_canBeUsed (sessions : List Verification) (wallet : String)
    (provider : Option String) (now : Int) (v : Verification)
    (hv : v ∈ getActiveVerifications sessions wallet provider now) :
    v.canBeUsed now = true := by
  simp only [getActiveVerifications, List.mem_filter, Bool.and_eq_true] at hv
  obtain ⟨_, ⟨⟨_, hs⟩, he⟩, _⟩ := hv
  simp only [Verification.canBeUsed, Verification.isExpired, hs, Bool.true_and]
  cases hx : v.expiresAt with
  | none => simp
  | some e =>
    rw [hx] at he
    simp only [decide_eq_true_eq] at he
    simp [he, not_lt.mpr (le_of_lt he)]

/-! ## Claim theorems -/

/-- C1: after any sequence of canMintBadge/initiateMint/processMint/revokeBadge
operations from an empty store, at most one non-revoked `BadgeMint` record
exists per (wallet, badgeType) pair; and in the concrete double-call scenario
(wallet with a usable `idos` session, badge `dao-voter`, no prior record) two
`initiateMint` calls create exactly one record, the second call returning a
rejection rather than a second record. -/
theorem mint_uniqueness_invariant :
    (∀ (env : EligEnv) (ops : List MintOp),
      mintUniqueness (mintRun env mintInitState ops)) ∧
    (scenarioAfterFirst.mints.length = 1 ∧
     (initiateMint scenarioEnv scenarioAfterFirst "0xAB" "dao-voter" web3ok).1 =
       .ok { success := false, error := some "Already have badge 'dao-voter'" } ∧
     (initiateMint scenarioEnv scenarioAfterFirst "0xAB" "dao-voter" web3ok).2.mints.length = 1 ∧
     activeCount (initiateMint scenarioEnv scenarioAfterFirst "0xAB" "dao-voter" web3ok).2
       (lowercase "0xAB") "dao-voter" = 1) := by
  constructor
  · intro env ops
    apply mintRun_preserves
    intro w k
    simp [mintInitState, activeCount]
  · exact ⟨by decide, by rfl, by decide, by decide⟩

/-- C2 counterexample: with a `failed`, non-revoked record as the only record of
the (0xab, dao-voter) pair, a new `initiateMint` IS blocked by that record — it
returns a rejection and creates nothing, refuting the claim that a failed
record does not block retry. -/
theorem failed_record_blocks_retry :
    failedRecord.metaStatus = "failed" ∧ failedRecord.isRevoked = false ∧
    (initiateMint scenarioEnv failedState "0xAB" "dao-voter" web3ok).1 =
      .ok { success := false, error := some "Already have badge 'dao-voter'" } ∧
    (initiateMint scenarioEnv failedState "0xAB" "dao-voter" web3ok).2.mints =
      [failedRecord] := by
  exact ⟨rfl, rfl, by rfl, by rfl⟩

/-- C2 amended: the uniqueness guard checks only `isRevoked = false` — whenever
any non-revoked record of the pair exists, regardless of its status (failed or
completed alike), `canMintBadge` rejects and `initiateMint` creates no record. -/
theorem nonrevoked_record_blocks_initiateMint :
    ∀ (env : EligEnv) (st : MintState) (w k : String) (m : MintRecord)
      (web3 : Except String Web3MintResult),
      w ≠ "" → k ≠ "" →
      st.mints.find? (activeFor (lowercase w) k) = some m →
      (∃ bt, env.badgeTypes.find? (fun b => b.key == k && b.isActive) = some bt) →
      (canMintBadge env st w k).canMint = false ∧
      (canMintBadge env st w k).reason = some ("Already have badge '" ++ k ++ "'") ∧
      (initiateMint env st w k web3).1 =
        .ok { success := false, error := some ("Already have badge '" ++ k ++ "'") } ∧
      (initiateMint env st w k web3).2.mints = st.mints := by
  intro env st w k m web3 hw hk hfind hbt
  obtain ⟨bt, hbt⟩ := hbt
  have hw' : (w == "") = false := by simp [hw]
  have hk' : (k == "") = false := by simp [hk]
  have hcan : canMintBadge env st w k =
      { canMint := false, reason := some ("Already have badge '" ++ k ++ "'"),
        existingMint := some m,
        suggestion := some "Each wallet can only mint this badge once" } := by
    unfold canMintBadge
    simp only [hw', hk', Bool.or_self, hbt, hfind]
    rfl
  have hcan2 : canMintBadge env (st.emit (mintingStartedEvents w)) w k =
      { canMint := false, reason := some ("Already have badge '" ++ k ++ "'"),
        existingMint := some m,
        suggestion := some "Each wallet can only mint this badge once" } := hcan
  refine ⟨by rw [hcan], by rw [hcan], ?_, ?_⟩
  · simp [initiateMint, hcan2]
  · simp [initiateMint, hcan2, mints_emit]

/-- C2 witness: the amended claim applied at the failed-record store. -/
theorem nonrevoked_record_blocks_initiateMint_witness :
    (canMintBadge scenarioEnv failedState "0xAB" "dao-voter").canMint = false ∧
    (initiateMint scenarioEnv failedState "0xAB" "dao-voter" web3ok).2.mints =
      failedState.mints := by
  have h := nonrevoked_record_blocks_initiateMint scenarioEnv failedState "0xAB" "dao-voter"
    failedRecord web3ok (by decide) (by decide) (by decide) ⟨daoVoterBadge, by decide⟩
  exact ⟨h.1, h.2.2.2⟩

/-- C3: `verifySecondaryRule` does raise a configuration-class
`EligibilityError` for an unknown method, but `checkSecondaryRequirements`
catches it, so `checkEligibility` returns a normal per-user ineligible verdict
(an `ok` result with `eligible = false`) instead of failing with the
configuration error. -/
theorem unknown_method_yields_ineligible_not_error :
    verifySecondaryRule unknownMethodRule 0 =
      .error (.eligibility "unknown" "Unsupported verification method: discord_member") ∧
    ∃ res, checkEligibility unknownMethodEnv "0xab" "special" = .ok res ∧
      res.eligible = false ∧ res.missingRequirements ≠ [] := by
  constructor
  · rfl
  · refine ⟨_, by rfl, by decide, by decide⟩

/-- C4: eligibility evaluation is deterministic — two runs of
`checkEligibility` over equal snapshots (sessions, badge table, clock and
attribute-check draws) return the same verdict, reasons and missing
requirements. -/
theorem checkEligibility_deterministic :
    ∀ (env₁ env₂ : EligEnv) (wallet badgeKey : String),
      env₁ = env₂ →
      ∀ res₁ res₂, checkEligibility env₁ wallet badgeKey = .ok res₁ →
        checkEligibility env₂ wallet badgeKey = .ok res₂ →
        res₁.eligible = res₂.eligible ∧ res₁.reasons = res₂.reasons ∧
        res₁.missingRequirements = res₂.missingRequirements := by
  intro env₁ env₂ wallet badgeKey henv res₁ res₂ h₁ h₂
  subst henv
  rw [h₁] at h₂
  injection h₂ with h₂
  rw [h₂]
  exact ⟨rfl, rfl, rfl⟩

/-- C4 witness: determinism applied at a concrete snapshot. -/
theorem checkEligibility_deterministic_witness :
    checkEligibility envBasic "0xab" "basic" = .ok resBasic ∧
    resBasic.eligible = resBasic.eligible ∧ resBasic.reasons = resBasic.reasons ∧
    resBasic.missingRequirements = resBasic.missingRequirements := by
  have h : checkEligibility envBasic "0xab" "basic" = .ok resBasic := by rfl
  exact ⟨h, checkEligibility_deterministic envBasic envBasic "0xab" "basic" rfl
    resBasic resBasic h h⟩

/-- C5 counterexample: `revokeVerification` moves a `completed` (terminal)
session to `failed`, refuting the claim that no operation transitions a session
out of a terminal state. -/
theorem revokeVerification_exits_terminal_state :
    completedSession.status = .completed ∧ revokedExpected.status = .failed ∧
    (revokeVerification oneSessionState 50 "v9" (some "policy violation")).2.verifications =
      [revokedExpected] := by
  exact ⟨rfl, rfl, by decide⟩

/-- C5 amended: the callback handler does reject a non-`pending` session
without mutating the store; but `revokeVerification` forcibly sets any existing
session to `failed` and `expireVerification` sets it to `expired`, regardless
of prior (even terminal) status. -/
theorem terminal_session_operations :
    (∀ (st : VerifState) (now : Int) (s : String) (pid : Option String)
       (dr : DIDCallbackResult) (v : Verification),
      s ≠ "" →
      st.verifications.find? (fun x => x.sessionId == some s) = some v →
      v.status ≠ .pending →
      handleDIDVerificationCallback st now (some s) pid dr =
        (.error "Verification already processed", st)) ∧
    (∀ (st : VerifState) (now : Int) (vid : String) (reason : Option String)
       (v : Verification),
      st.verifications.find? (fun x => x.id == vid) = some v →
      (revokeVerification st now vid reason).2.verifications =
        saveVerification st.verifications vid (fun x =>
          { x with status := .failed, errorMessage := some (jsOrStr reason "Manually revoked"),
                   completedAt := some now })) ∧
    (∀ (st : VerifState) (vid : String) (v : Verification),
      st.verifications.find? (fun x => x.id == vid) = some v →
      (expireVerification st vid).2.verifications =
        saveVerification st.verifications vid (fun x => { x with status := .expired })) := by
  refine ⟨?_, ?_, ?_⟩
  · intro st now s pid dr v hs hfind hstat
    have hs' : (s == "") = false := by simp [hs]
    unfold handleDIDVerificationCallback
    simp only [hs', Bool.false_eq_true, if_false]
    split
    · rename_i heq
      simp [hfind] at heq
    · rename_i verification heq
      rw [hfind] at heq
      injection heq with heq
      subst heq
      simp [hstat]
  · intro st now vid reason v hfind
    unfold revokeVerification
    rw [hfind]
  · intro st vid v hfind
    unfold expireVerification
    rw [hfind]

/-- C5 witness: the amended behaviours applied at the one-session store. -/
theorem terminal_session_operations_witness :
    handleDIDVerificationCallback oneSessionState 50 (some "sess9") none
      { success := false } = (.error "Verification already processed", oneSessionState) ∧
    (revokeVerification oneSessionState 50 "v9" (some "policy violation")).2.verifications =
      saveVerification oneSessionState.verifications "v9" (fun x =>
        { x with status := .failed,
                 errorMessage := some (jsOrStr (some "policy violation") "Manually revoked"),
                 completedAt := some 50 }) ∧
    (expireVerification oneSessionState "v9").2.verifications =
      saveVerification oneSessionState.verifications "v9"
        (fun x => { x with status := .expired }) := by
  refine ⟨?_, ?_, ?_⟩
  · exact terminal_session_operations.1 oneSessionState 50 "sess9" none { success := false }
      completedSession (by decide) (by decide) (by decide)
  · exact terminal_session_operations.2.1 oneSessionState 50 "v9" (some "policy violation")
      completedSession (by decide)
  · exact terminal_session_operations.2.2 oneSessionState "v9" completedSession (by decide)

/-- C6: `revokeBadge` fails on a missing record and on an already-revoked
record (without mutation in either case); otherwise it returns true, sets
`isRevoked`, records the reason and a revocation timestamp on the row, and
publishes the `badge_revoked` event both wallet-scoped and to the `admin`
audit channel. -/
theorem revokeBadge_checks_and_effects :
    (∀ (st : MintState) (now : Int) (mintId : Nat) (reason : String),
      reason ≠ "" →
      st.mints.find? (fun r => r.id == mintId) = none →
      revokeBadge st now mintId reason =
        (.error (.notFound "Mint record" (some (toString mintId))), st)) ∧
    (∀ (st : MintState) (now : Int) (mintId : Nat) (reason : String) (m : MintRecord),
      reason ≠ "" →
      st.mints.find? (fun r => r.id == mintId) = some m →
      m.isRevoked = true →
      revokeBadge st now mintId reason = (.error (.validation "Badge is already revoked"), st)) ∧
    (∀ (st : MintState) (now : Int) (mintId : Nat) (reason : String) (m : MintRecord),
      reason ≠ "" →
      st.mints.find? (fun r => r.id == mintId) = some m →
      m.isRevoked = false →
      (revokeBadge st now mintId reason).1 = .ok true ∧
      (revokeBadge st now mintId reason).2.mints =
        updateMintById st.mints mintId (revokeUpdate reason now) ∧
      revokeUpdate reason now m ∈ (revokeBadge st now mintId reason).2.mints ∧
      (revokeUpdate reason now m).isRevoked = true ∧
      (revokeUpdate reason now m).metaRevocationReason = some reason ∧
      (revokeUpdate reason now m).metaRevokedAt = some now ∧
      Event.mk (.wallet m.wallet) "badge_revoked" ∈ (revokeBadge st now mintId reason).2.events ∧
      Event.mk (.channel "admin") "badge_revoked" ∈ (revokeBadge st now mintId reason).2.events) := by
  refine ⟨?_, ?_, ?_⟩
  · intro st now mintId reason hr hfind
    have hr' : (reason == "") = false := by simp [hr]
    unfold revokeBadge
    simp only [hr', Bool.false_eq_true, if_false, hfind]
  · intro st now mintId reason m hr hfind hrev
    have hr' : (reason == "") = false := by simp [hr]
    unfold revokeBadge
    simp only [hr', Bool.false_eq_true, if_false, hfind, hrev, if_true]
  · intro st now mintId reason m hr hfind hrev
    have hr' : (reason == "") = false := by simp [hr]
    have hm : m ∈ st.mints := List.mem_of_find?_eq_some hfind
    have hid : (m.id == mintId) = true := by
      have := List.find?_some hfind
      simpa using this
    have hmain : revokeBadge st now mintId reason =
        (.ok true,
         { mints := updateMintById st.mints mintId (revokeUpdate reason now),
           nextId := st.nextId,
           events := (st.events ++ mintStatusUpdateEvents m.wallet) ++
             badgeRevokedEvents m.wallet }) := by
      unfold revokeBadge
      simp only [hr', Bool.false_eq_true, if_false, hfind, hrev]
      rfl
    refine ⟨by rw [hmain], by rw [hmain], ?_, rfl, rfl, rfl, ?_, ?_⟩
    · rw [hmain]
      show revokeUpdate reason now m ∈ updateMintById st.mints mintId (revokeUpdate reason now)
      unfold updateMintById
      refine List.mem_map.mpr ⟨m, hm, ?_⟩
      simp [hid]
    · rw [hmain]
      simp [badgeRevokedEvents]
    · rw [hmain]
      simp [badgeRevokedEvents]

/-- C6 witness: the three behaviours at concrete stores. -/
theorem revokeBadge_checks_and_effects_witness :
    revokeBadge mintInitState 99 7 "policy violation" =
      (.error (.notFound "Mint record" (some "7")), mintInitState) ∧
    revokeBadge revokedMintState 99 3 "policy violation" =
      (.error (.validation "Badge is already revoked"), revokedMintState) ∧
    (revokeBadge completedMintState 99 0 "policy violation").1 = .ok true ∧
    Event.mk (.wallet "0xab") "badge_revoked" ∈
      (revokeBadge completedMintState 99 0 "policy violation").2.events ∧
    Event.mk (.channel "admin") "badge_revoked" ∈
      (revokeBadge completedMintState 99 0 "policy violation").2.events := by
  have h1 := revokeBadge_checks_and_effects.1 mintInitState 99 7 "policy violation"
    (by decide) (by decide)
  have h2 := revokeBadge_checks_and_effects.2.1 revokedMintState 99 3 "policy violation"
    revokedMintRecord (by decide) (by decide) (by decide)
  have h3 := revokeBadge_checks_and_effects.2.2 completedMintState 99 0 "policy violation"
    completedMintRecord (by decide) (by decide) (by decide)
  refine ⟨?_, h2, h3.1, ?_, ?_⟩
  · convert h1 using 2
  · have hev := h3.2.2.2.2.2.2.1
    simpa [completedMintRecord] using hev
  · exact h3.2.2.2.2.2.2.2

/-- C7: for the `dao-voter` badge (`logic = OR`,
`primary = ["polygonid","idos"]`): a wallet with at least one active session
for one of the listed providers is eligible; a wallet with no active sessions
is ineligible with a missing-requirements entry naming both providers. -/
theorem daoVoter_or_logic_scenarios :
    (∀ (env : EligEnv) (wallet : String), env.badgeTypes = [daoVoterBadge] →
      wallet ≠ "" →
      ∀ p, (p = "polygonid" ∨ p = "idos") →
      getActiveVerifications env.sessions wallet (some p) env.now ≠ [] →
      (checkEligibility env wallet "dao-voter").map (·.eligible) = .ok true) ∧
    (∀ (env : EligEnv) (wallet : String), env.badgeTypes = [daoVoterBadge] →
      wallet ≠ "" →
      (∀ q, getActiveVerifications env.sessions wallet (some q) env.now = []) →
      (checkEligibility env wallet "dao-voter").map (·.eligible) = .ok false ∧
      ∀ res, checkEligibility env wallet "dao-voter" = .ok res →
        "Missing identity verification (need one of: polygonid, idos)" ∈
          res.missingRequirements) := by
  constructor
  · intro env wallet henv hw p hp hne
    have hw' : (wallet == "") = false := by simp [hw]
    have hfind : ∃ v, (getActiveVerifications env.sessions wallet (some p) env.now).find?
        (fun v => v.canBeUsed env.now) = some v := by
      rw [← Option.isSome_iff_exists, List.find?_isSome]
      obtain ⟨v, hv⟩ := List.exists_mem_of_ne_nil _ hne
      exact ⟨v, hv, active_canBeUsed _ _ _ _ _ hv⟩
    obtain ⟨v, hv⟩ := hfind
    simp only [checkEligibility, henv, hw', Bool.or_self]
    cases hp with
    | inl h =>
      subst h
      simp [daoVoterBadge, checkPrimaryRequirements, checkSecondaryRequirements, hv,
        evaluatePrimaryLogic, evaluateSecondaryLogic, Except.map]
    | inr h =>
      subst h
      simp [daoVoterBadge, checkPrimaryRequirements, checkSecondaryRequirements, hv,
        evaluatePrimaryLogic, evaluateSecondaryLogic, Except.map]
  · intro env wallet henv hw hq
    have hw' : (wallet == "") = false := by simp [hw]
    constructor
    · simp only [checkEligibility, henv, hw', Bool.or_self]
      simp [daoVoterBadge, checkPrimaryRequirements, checkSecondaryRequirements, hq,
        evaluatePrimaryLogic, evaluateSecondaryLogic, Except.map]
    · intro res hres
      simp only [checkEligibility, henv, hw', Bool.or_self] at hres
      simp only [daoVoterBadge, checkPrimaryRequirements, checkSecondaryRequirements,
        hq, List.find?_nil, List.map_cons, List.map_nil] at hres
      injection hres with hres
      rw [← hres]
      simp [checkSecondaryRequirements, evaluatePrimaryLogic, evaluateSecondaryLogic,
        buildEligibilityDetails, jsOrStr, jsTruthyStr, String.intercalate]
      decide

/-- C7 witness: Scenario A at the usable-idos-session snapshot and Scenario B
at the empty-session snapshot. -/
theorem daoVoter_or_logic_scenarios_witness :
    (checkEligibility scenarioEnv "0xAB" "dao-voter").map (·.eligible) = .ok true ∧
    (checkEligibility noSessionEnv "0xAB" "dao-voter").map (·.eligible) = .ok false := by
  constructor
  · exact daoVoter_or_logic_scenarios.1 scenarioEnv "0xAB" rfl (by decide) "idos"
      (Or.inr rfl) (by decide)
  · exact (daoVoter_or_logic_scenarios.2 noSessionEnv "0xAB" rfl (by decide) (fun q => rfl)).1

/-- C8: `getActiveVerifications` returns exactly the sessions of the wallet
satisfying the usable predicate (`completed` and unset-or-future expiry),
optionally filtered by provider; and the periodic sweep moves every `pending`
session with a passed expiry to `expired`, after which `getActiveVerifications`
excludes it. -/
theorem activeSessions_exact_and_sweep :
    (∀ (sessions : List Verification) (wallet : String) (provider : Option String)
      (now : Int) (v : Verification),
      v ∈ getActiveVerifications sessions wallet provider now ↔
        (v ∈ sessions ∧ v.wallet = lowercase wallet ∧
         v.status = .completed ∧
         (v.expiresAt = none ∨ ∃ e, v.expiresAt = some e ∧ now < e) ∧
         (∀ p, provider = some p → p ≠ "" → v.provider = p))) ∧
    (∀ (sessions : List Verification) (now : Int) (v : Verification),
      v ∈ sessions → v.status = .pending →
      (∃ e, v.expiresAt = some e ∧ e < now) →
      { v with status := .expired } ∈ (cleanupExpiredVerifications sessions now).1 ∧
      ∀ (w : String) (p : Option String),
        { v with status := .expired } ∉
          getActiveVerifications (cleanupExpiredVerifications sessions now).1 w p now) := by
  constructor
  · intro sessions wallet provider now v
    simp only [getActiveVerifications, List.mem_filter, Bool.and_eq_true, beq_iff_eq]
    constructor
    · rintro ⟨hm, ⟨⟨hw, hs⟩, he⟩, hp⟩
      refine ⟨hm, hw, hs, ?_, ?_⟩
      · cases hx : v.expiresAt with
        | none => exact Or.inl rfl
        | some e => rw [hx] at he; exact Or.inr ⟨e, rfl, by simpa using he⟩
      · intro p hp2 hne
        rw [hp2] at hp
        simp only [beq_iff_eq] at hp
        split at hp
        · simp_all
        · simpa using hp
    · rintro ⟨hm, hw, hs, he, hp⟩
      refine ⟨hm, ⟨⟨hw, hs⟩, ?_⟩, ?_⟩
      · cases he with
        | inl h => simp [h]
        | inr h => obtain ⟨e, h1, h2⟩ := h; simp [h1, h2]
      · cases hq : provider with
        | none => simp
        | some p =>
          by_cases hne : p = ""
          · simp [hne]
          · simp [hne, hp p hq hne]
  · intro sessions now v hm hp he
    obtain ⟨e, he1, he2⟩ := he
    constructor
    · simp only [cleanupExpiredVerifications, List.mem_map]
      refine ⟨v, hm, ?_⟩
      simp [hp, he1, he2]
    · intro w p
      simp [getActiveVerifications, List.mem_filter]

/-- C8 witness: a usable session is returned; a pending session past its
expiry is swept to `expired` and then excluded. -/
theorem activeSessions_exact_and_sweep_witness :
    completedSession ∈ getActiveVerifications [completedSession] "0xAB" none 0 ∧
    { pendingExpiredSession with status := VerificationStatus.expired } ∈
      (cleanupExpiredVerifications [pendingExpiredSession] 50).1 ∧
    { pendingExpiredSession with status := VerificationStatus.expired } ∉
      getActiveVerifications (cleanupExpiredVerifications [pendingExpiredSession] 50).1
        "0xAB" none 50 := by
  have ha := (activeSessions_exact_and_sweep.1 [completedSession] "0xAB" none 0
    completedSession).mpr
    ⟨by decide, by decide, by decide, by decide, by intro p hp; cases hp⟩
  have hb := activeSessions_exact_and_sweep.2 [pendingExpiredSession] 50
    pendingExpiredSession (by decide) (by decide) ⟨10, by decide, by decide⟩
  exact ⟨ha, hb.1, hb.2 "0xAB" none⟩

/-- C9: a channel message is delivered to exactly the registered, open
connections whose subscription set contains the channel (and to no other); a
wallet-scoped message is delivered to exactly the registered, open connections
authenticated as that wallet. -/
theorem event_bus_delivery_exact :
    (∀ (clients : List WSClient) (channel : String) (c : WSClient),
      c ∈ sendToChannel clients channel ↔
        c ∈ clients ∧ channel ∈ c.subscriptions ∧ c.isOpen = true) ∧
    (∀ (clients : List WSClient) (wallet : String) (c : WSClient),
      c ∈ sendToWallet clients wallet ↔
        c ∈ clients ∧ c.userWallet = some wallet ∧ c.isOpen = true) := by
  constructor
  · intro clients channel c
    simp [sendToChannel, List.mem_filter, List.elem_iff, and_assoc]
  · intro clients wallet c
    simp [sendToWallet, List.mem_filter, and_assoc]

/-- C10: an empty primary list makes the primary combine vacuously true for
either logic value; and with an empty primary list and no required secondary
entries, `checkEligibility` returns `eligible = true` for any wallet. -/
theorem empty_primary_vacuous :
    (∀ (logic : Option RuleLogic), evaluatePrimaryLogic [] logic = true) ∧
    (∀ (env : EligEnv) (wallet badgeKey : String) (badgeType : BadgeTypeE),
      wallet ≠ "" → badgeKey ≠ "" →
      env.badgeTypes.find? (fun bt => bt.key == badgeKey && bt.isActive) = some badgeType →
      badgeType.rules.primary = [] →
      (∀ r ∈ badgeType.rules.secondary, r.required = some false) →
      (checkEligibility env wallet badgeKey).map (·.eligible) = .ok true) := by
  constructor
  · intro logic; rfl
  · intro env wallet badgeKey bt hw hk hfind hprim hsec
    have hw' : (wallet == "") = false := by simp [hw]
    have hk' : (badgeKey == "") = false := by simp [hk]
    have hact : bt.isActive = true := by
      have h2 := List.find?_some hfind
      simp only [Bool.and_eq_true] at h2
      exact h2.2
    have hsecElig : evaluateSecondaryLogic
        (checkSecondaryRequirements bt.rules.secondary env.rand) bt.rules.logic = true := by
      apply evaluateSecondary_no_required
      intro x hx
      obtain ⟨rule, hr, hreq⟩ := mem_checkSecondary _ _ x hx
      rw [hreq, hsec rule hr]
      rfl
    simp only [checkEligibility, hw', hk', Bool.or_self, hfind, hact, Bool.not_true,
      Bool.false_eq_true, if_false, hprim, Except.map]
    simp [checkPrimaryRequirements, evaluatePrimaryLogic, hsecElig]

/-- C10 witness: the vacuous badge accepted for a concrete wallet. -/
theorem empty_primary_vacuous_witness :
    (checkEligibility envBasic "0xab" "basic").map (·.eligible) = .ok true := by
  exact empty_primary_vacuous.2 envBasic "0xab" "basic" ⟨"basic", "Basic", ⟨[], [], none⟩, true⟩
    (by decide) (by decide) (by decide) rfl (by intro r hr; simp at hr)
